import Mathlib

/-!
Verification of the literal-lowering transform and schema object finder of
`cwa-images` (`src/parser.rs`), as a shallow embedding in Lean.

Conventions of the embedding:
* `serde_json::Value` becomes the inductive `Value` below. Numbers held in a
  `Value` were produced by `serde_json::Number::from_f64` and are therefore
  finite IEEE doubles; we model them as rationals (`ℚ`), on which the only
  arithmetic the program performs (negation) is exact.
* `serde_json::Map` (insertion-ordered, later write wins — spec §3) becomes an
  association list `List (String × Value)` with no duplicate keys; `mapInsert`
  replaces the value in place when the key is present and appends otherwise.
* The swc syntax tree types (`Script`, `Stmt`, `Decl`, `Expr`, `PropOrSpread`,
  `Prop`, `PropName`, `Lit`, `UnaryOp`, `ExprOrSpread`) are embedded with the
  constructors the code inspects; every node kind the code sends to a `_`
  arm is collapsed into a single `other` constructor.
* A numeric literal token carries an `f64` that is either finite or infinite
  (`JsNum`); no literal token produces NaN.
* A Rust `panic!` / failed `unwrap` is modelled as the `Except.error` channel
  of `Except String _`; `Option` models the per-slot absence channel.
-/

/-- The `f64` payload of a swc numeric literal: finite (a rational, since every
finite double is rational and the program's only arithmetic on it is exact
negation) or infinite (e.g. the literal `1e999`). -/
inductive JsNum where
  | finite (q : ℚ)
  | inf
  deriving DecidableEq, Repr

/-- Model of `serde_json::Number::from_f64`: `some` exactly on finite inputs. -/
def from_f64 : JsNum → Option ℚ
  | .finite q => some q
  | .inf => none

/-- Model of `serde_json::Value`. Numbers inside a `Value` are finite doubles,
modelled as rationals. -/
inductive Value where
  | null
  | bool (b : Bool)
  | num (q : ℚ)
  | str (s : String)
  | arr (elems : List Value)
  | obj (entries : List (String × Value))

/-- Model of `serde_json::Map::contains_key`. -/
def containsKey (m : List (String × Value)) (k : String) : Bool :=
  m.any (fun p => p.1 == k)

/-- Model of `serde_json::Map::insert` (insertion-ordered map per spec §3): if the key
is present, replace its value in place; otherwise append the pair. -/
def mapInsert (m : List (String × Value)) (k : String) (v : Value) :
    List (String × Value) :=
  if containsKey m k then
    m.map (fun p => if p.1 == k then (k, v) else p)
  else
    m ++ [(k, v)]

/-- Model of `swc_ecma_ast::UnaryOp`: the two ops the code distinguishes, and all
others (`!`, `~`, `typeof`, `void`, `delete`) as `other`. -/
inductive UnaryOp where
  | minus
  | plus
  | other
  deriving DecidableEq, Repr

/-- Model of `swc_ecma_ast::Lit`: the four variants the code handles; `other` covers
`BigInt`, `Regex`, `JSXText`. -/
inductive Lit where
  | str (s : String)
  | num (n : JsNum)
  | bool (b : Bool)
  | null
  | other
  deriving DecidableEq, Repr

/-- Model of `swc_ecma_ast::PropName`: the three variants `parse_prop_name` handles;
`computed` covers the `Computed` and `BigInt` variants that reach its
`panic!` arm. -/
inductive PropName where
  | str (s : String)
  | ident (s : String)
  | num (n : JsNum)
  | computed
  deriving DecidableEq, Repr

mutual

/-- Model of `swc_ecma_ast::Expr`: the node kinds `parse_expr` inspects; `other`
covers every kind its `_` arm drops (`Bin`, `Ident`, `Fn`, `Arrow`, calls,
…). -/
inductive Expr where
  | object (props : List PropOrSpread)
  | array (elems : List AElem)
  | lit (l : Lit)
  | unary (op : UnaryOp) (arg : Expr)
  | other

/-- Model of `swc_ecma_ast::PropOrSpread`. The spread payload expression is carried
but never read by the code. -/
inductive PropOrSpread where
  | prop (p : SProp)
  | spread (e : Expr)

/-- Model of `swc_ecma_ast::Prop`: `KeyValue`, and `other` for shorthand / getter /
setter / method properties. -/
inductive SProp where
  | keyValue (key : PropName) (value : Expr)
  | other

/-- One slot of `ArrayLit::elems : Vec<Option<ExprOrSpread>>`: a hole
(`None`) or an `ExprOrSpread` with its spread marker and expression. -/
inductive AElem where
  | hole
  | elem (isSpread : Bool) (e : Expr)

end

/-- Model of `swc_ecma_ast::Decl`: `Var` with its declarators' optional initializers
(the only fields the code reads); `other` covers every other declaration. -/
inductive Decl where
  | var (inits : List (Option Expr))
  | other

/-- Model of `swc_ecma_ast::Stmt`: `Decl`, and `other` for every other statement. -/
inductive Stmt where
  | decl (d : Decl)
  | other

/-- Model of `swc_ecma_ast::Script` (the `body` field is the only one read). -/
structure Script where
  body : List Stmt

/-- Embedding of `parse_prop_name` (parser.rs:139): string keys use their text, identifier
keys their spelling, numeric keys the number's decimal rendering (the Rust
`f64` `Display`, abstracted here as `numKeyString`); every other key kind
hits `panic!("unknown key type")`, modelled as the error channel. -/
def numKeyString : JsNum → String
  | .finite q => toString q
  | .inf => "inf"

def parse_prop_name : PropName → Except String String
  | .str s => .ok s
  | .ident s => .ok s
  | .num n => .ok (numKeyString n)
  | .computed => .error "unknown key type"

/-- Embedding of `parse_lit` (parser.rs:149). The `Num` arm is
`Number::from_f64(num.value).unwrap()`: a non-finite literal value makes the
`unwrap` panic (error channel). -/
def parse_lit : Lit → Except String (Option Value)
  | .str s => .ok (some (.str s))
  | .num n =>
    match from_f64 n with
    | some q => .ok (some (.num q))
    | none => .error "called Option::unwrap on a None value"
  | .bool b => .ok (some (.bool b))
  | .null => .ok (some .null)
  | .other => .ok none

mutual

/-- Embedding of `parse_expr` (parser.rs:91). Object and array literals delegate to the
property / element folds below; literals and unaries to `parse_lit` /
`parse_unary`; every other expression kind is dropped (`none`). -/
def parse_expr : Expr → Except String (Option Value)
  | .object props =>
    match parse_props props [] with
    | .error e => .error e
    | .ok m => .ok (some (.obj m))
  | .array elems =>
    match parse_elems elems with
    | .error e => .error e
    | .ok a => .ok (some (.arr a))
  | .lit l => parse_lit l
  | .unary op arg => parse_unary op arg
  | .other => .ok none

/-- The object-literal loop of `parse_expr` (parser.rs:94-114). The source
first filters `props` down to the `PropOrSpread::Prop(Prop::KeyValue(_))`
entries and then folds over them inserting into a fresh map; here the filter
is fused into the fold (non-key/value entries are skipped in place), with
`m` the map accumulated so far. For a key/value pair the value is lowered
first, and only if it lowers successfully is the key normalized (so a
`panic!` in `parse_prop_name` is reached only for pairs whose value
lowered) and the pair inserted. -/
def parse_props (ps : List PropOrSpread) (m : List (String × Value)) :
    Except String (List (String × Value)) :=
  match ps with
  | [] => .ok m
  | .spread _ :: rest => parse_props rest m
  | .prop .other :: rest => parse_props rest m
  | .prop (.keyValue k v) :: rest =>
    match parse_expr v with
    | .error e => .error e
    | .ok none => parse_props rest m
    | .ok (some value) =>
      match parse_prop_name k with
      | .error e => .error e
      | .ok key => parse_props rest (mapInsert m key value)

/-- The array-literal loop of `parse_expr` (parser.rs:118-127): holes
(`filter_map(|x| x)`) are dropped, and for every remaining slot the inner
expression `elem.expr` is lowered — the `spread` marker is never consulted —
keeping the successfully lowered values in order. -/
def parse_elems (es : List AElem) : Except String (List Value) :=
  match es with
  | [] => .ok []
  | .hole :: rest => parse_elems rest
  | .elem _ e :: rest =>
    match parse_expr e with
    | .error err => .error err
    | .ok none => parse_elems rest
    | .ok (some v) =>
      match parse_elems rest with
      | .error err => .error err
      | .ok vs => .ok (v :: vs)

/-- Embedding of `parse_unary` (parser.rs:163). `Minus` on an operand that lowers to a
`Number` negates it (the operand number is a finite double, so the source's
`as_f64().unwrap()` and `from_f64(-num).unwrap()` both succeed); `Plus`
passes a `Number` operand through; anything else yields `none`. -/
def parse_unary (op : UnaryOp) (arg : Expr) : Except String (Option Value) :=
  match op with
  | .minus =>
    match parse_expr arg with
    | .error e => .error e
    | .ok (some (.num q)) => .ok (some (.num (-q)))
    | .ok _ => .ok none
  | .plus =>
    match parse_expr arg with
    | .error e => .error e
    | .ok (some (.num q)) => .ok (some (.num q))
    | .ok _ => .ok none
  | .other => .ok none

end

/-- Embedding of `parse_decl` (parser.rs:84): a `Var` declaration yields its declarators'
initializers with absent ones filtered out; any other declaration yields
`None`. -/
def parse_decl : Decl → Option (List Expr)
  | .var inits => some (inits.filterMap id)
  | .other => none

/-- The 0/1/many collapse used by both `parse_stmt` (parser.rs:73-77) and
`parse_script` (parser.rs:53-57). -/
def collapse : List Value → Option Value
  | [] => none
  | [v] => some v
  | vs => some (.arr vs)

/-- The collection loop shared by `parse_stmt` (parser.rs:66-71) and
`parse_script` (parser.rs:46-51): lower each item, keeping the `some`
results in order; a panic aborts the whole loop. -/
def collectExprs : List Expr → Except String (List Value)
  | [] => .ok []
  | e :: rest =>
    match parse_expr e with
    | .error err => .error err
    | .ok none => collectExprs rest
    | .ok (some v) =>
      match collectExprs rest with
      | .error err => .error err
      | .ok vs => .ok (v :: vs)

/-- Embedding of `parse_stmt` (parser.rs:60): non-declaration statements yield `none`;
declarations that are not `var` yield `none`; for a `var` declaration the
initializers are lowered and the per-declarator results collapsed
(0 → none, 1 → unwrapped, many → Array). -/
def parse_stmt : Stmt → Except String (Option Value)
  | .decl d =>
    match parse_decl d with
    | none => .ok none
    | some inits =>
      match collectExprs inits with
      | .error err => .error err
      | .ok values => .ok (collapse values)
  | .other => .ok none

/-- The statement loop of `parse_script` (parser.rs:46-51). -/
def collectStmts : List Stmt → Except String (List Value)
  | [] => .ok []
  | st :: rest =>
    match parse_stmt st with
    | .error err => .error err
    | .ok none => collectStmts rest
    | .ok (some v) =>
      match collectStmts rest with
      | .error err => .error err
      | .ok vs => .ok (v :: vs)

/-- Embedding of `parse_script` (parser.rs:45): collect the per-statement values and
collapse them (0 → none, 1 → unwrapped, many → Array). -/
def parse_script (s : Script) : Except String (Option Value) :=
  match collectStmts s.body with
  | .error err => .error err
  | .ok values => .ok (collapse values)

/-- Model of `ParseError` (parser.rs:12). -/
structure ParseError where
  kind : String
  message : String
  deriving DecidableEq, Repr

/-- Embedding of `parse_source` (parser.rs:34). The external swc parser is a leaf
dependency; its outcome (a `Script`, or a tokenizer/grammar diagnostic
message) is taken as the input `parsed`. A swc error is converted by the
`From` impl (parser.rs:17) into a `ParseError` with kind `"parse error"`;
a lowered script with no value becomes a `ParseError` with kind
`"parse_script error"`. The outer `Except String` is the panic channel of
the lowering itself. -/
def parse_source (parsed : Except String Script) :
    Except String (Except ParseError Value) :=
  match parsed with
  | .error msg => .ok (.error ⟨"parse error", msg⟩)
  | .ok script =>
    match parse_script script with
    | .error panicMsg => .error panicMsg
    | .ok none =>
      .ok (.error ⟨"parse_script error", "not find any value in script"⟩)
    | .ok (some v) => .ok (.ok v)

mutual

/-- Embedding of `find_objects` (parser.rs:188), generic over the target record type `T`,
its `CondKeys::keys()` list, and its serde deserialization
(`serde_json::from_value`), modelled as `deser : Value → Option T`. On an
object, the key-presence check runs first; if it passes and deserialization
succeeds the single record is returned at once (the early `return`);
otherwise — key check failed, or deserialization failed — the search
recurses into the property values in map order. Arrays recurse into their
elements; scalars contribute nothing. -/
def find_objects {T : Type} (keys : List String) (deser : Value → Option T) :
    Value → List T
  | .obj m =>
    if keys.all (fun k => containsKey m k) then
      match deser (.obj m) with
      | some t => [t]
      | none => findEntries keys deser m
    else
      findEntries keys deser m
  | .arr elems => findElems keys deser elems
  | _ => []

/-- The `for (_, val) in map` loop of `find_objects`. -/
def findEntries {T : Type} (keys : List String) (deser : Value → Option T) :
    List (String × Value) → List T
  | [] => []
  | (_, v) :: rest => find_objects keys deser v ++ findEntries keys deser rest

/-- The `for elem in elems` loop of `find_objects`. -/
def findElems {T : Type} (keys : List String) (deser : Value → Option T) :
    List Value → List T
  | [] => []
  | v :: rest => find_objects keys deser v ++ findElems keys deser rest

end

/-- Result of lowering one expression, with the absence channel only — used
by the spec-level formulations below, which are stated for panic-free
inputs. -/
def exprToOpt (e : Expr) : Option Value :=
  match parse_expr e with
  | .ok v => v
  | .error _ => none

/-- Literal tokens whose `f64` value is finite (the ones whose `from_f64`
unwrap cannot panic). -/
def goodLit : Lit → Bool
  | .num .inf => false
  | _ => true

/-- Property keys that do not reach the `panic!("unknown key type")` arm of
`parse_prop_name`. -/
def goodKey : PropName → Bool
  | .computed => false
  | _ => true

/-- Expressions that lower to the absence of a value (`Ok(None)`). The
object loop normalizes a property's key only after its value has lowered
successfully, so a pair whose value lowers to absence never evaluates its
key and cannot panic there, whatever the key's form. -/
def lowersToNone (e : Expr) : Bool :=
  match parse_expr e with
  | .ok none => true
  | _ => false

mutual

/-- Expressions containing no panic source: no non-finite numeric literal,
and no key/value property combining an unsupported key form with a value
that lowers successfully (an unsupported key whose value lowers to absence
is harmless, since the key is then never normalized). Spread payloads are
exempt because the object loop never lowers them. -/
def goodE : Expr → Bool
  | .object props => goodPs props
  | .array elems => goodEls elems
  | .lit l => goodLit l
  | .unary _ arg => goodE arg
  | .other => true

def goodPs : List PropOrSpread → Bool
  | [] => true
  | .spread _ :: rest => goodPs rest
  | .prop .other :: rest => goodPs rest
  | .prop (.keyValue k v) :: rest =>
    (goodKey k || lowersToNone v) && (goodE v && goodPs rest)

def goodEls : List AElem → Bool
  | [] => true
  | .hole :: rest => goodEls rest
  | .elem _ e :: rest => goodE e && goodEls rest

end

/-- Statements containing no panic source in any lowered initializer. -/
def goodStmt : Stmt → Bool
  | .decl (.var inits) => (inits.filterMap id).all goodE
  | _ => true

/-- Scripts containing no panic source. -/
def goodScript (s : Script) : Bool :=
  s.body.all goodStmt

/-- Claim-side reading of the array-literal loop (C4, spec §4.1 as written):
holes are skipped and spread elements are dropped, keeping only the
successfully lowered non-spread element expressions. Compared against the
code's `parse_elems`. -/
def claimArrayLower (es : List AElem) : List Value :=
  es.filterMap fun el =>
    match el with
    | .hole => none
    | .elem true _ => none
    | .elem false e => exprToOpt e

/-- What the code's array loop actually computes on panic-free input: the
spread marker is ignored, every present slot's inner expression is lowered. -/
def codeArrayLower (es : List AElem) : List Value :=
  es.filterMap fun el =>
    match el with
    | .hole => none
    | .elem _ e => exprToOpt e

/-- The initializer expressions a statement contributes (declarators of a
`var` declaration whose initializer is present). -/
def stmtInits : Stmt → List Expr
  | .decl (.var inits) => inits.filterMap id
  | .decl .other => []
  | .other => []

/-- Claim-side reading of the top-level lowering (C1, spec §4.1 steps 2 and 4
as written): one flat sequence of successfully lowered declarator values
across all kept statements, collapsed exactly once. Compared against the
code's `parse_script`. -/
def claimScriptLower (s : Script) : Option Value :=
  collapse ((s.body.flatMap stmtInits).filterMap exprToOpt)

/-- Per-statement lowering as the code performs it (amended C1): the
statement's own successfully lowered declarator values are collapsed first. -/
def stmtLowerSpec : Stmt → Option Value
  | .decl (.var inits) => collapse ((inits.filterMap id).filterMap exprToOpt)
  | .decl .other => none
  | .other => none

/-- Script-level lowering as the code performs it (amended C1): the kept
per-statement results (each already collapsed) are collapsed a second time. -/
def scriptLowerSpec (s : Script) : Option Value :=
  collapse (s.body.filterMap stmtLowerSpec)

theorem findEntries_eq_flatMap {T : Type} (keys : List String)
    (deser : Value → Option T) (m : List (String × Value)) :
    findEntries keys deser m =
      (m.map Prod.snd).flatMap (find_objects keys deser) := by
  induction m with
  | nil => simp [findEntries]
  | cons p rest ih => cases p with | mk k v => simp [findEntries, ih]

/-- C2: when the finder reaches an Object whose key set includes every
required key and whose deserialization into the record type succeeds, it
returns exactly that one record for the subtree and does not descend into
the object's property values, so nested matches inside it are never
collected. -/
theorem find_objects_match_is_leaf {T : Type} (keys : List String)
    (deser : Value → Option T) (m : List (String × Value)) (t : T)
    (hkeys : keys.all (fun k => containsKey m k) = true)
    (hdeser : deser (.obj m) = some t) :
    find_objects keys deser (.obj m) = [t] := by
  simp [find_objects, hkeys, hdeser]

theorem find_objects_match_is_leaf_witness :
    find_objects ["img", "text"] (fun v => some v)
      (.obj [("img", .str "a.png"), ("text", .str "t"),
             ("inner", .obj [("img", .str "b.png"), ("text", .str "u")])]) =
      [.obj [("img", .str "a.png"), ("text", .str "t"),
             ("inner", .obj [("img", .str "b.png"), ("text", .str "u")])]] :=
  find_objects_match_is_leaf _ _ _ _ (by decide) rfl

/-- C6: when the key check fails, or the key check passes but
deserialization into the record type fails, the finder emits nothing for
the object itself and recurses into each of its property values in map
order, concatenating their results. -/
theorem find_objects_nonmatch_recurses {T : Type} (keys : List String)
    (deser : Value → Option T) (m : List (String × Value))
    (h : keys.all (fun k => containsKey m k) = false ∨ deser (.obj m) = none) :
    find_objects keys deser (.obj m) =
      (m.map Prod.snd).flatMap (find_objects keys deser) := by
  rw [← findEntries_eq_flatMap]
  rcases h with h | h
  · simp [find_objects, h]
  · simp [find_objects, h]

theorem find_objects_nonmatch_recurses_witness :
    find_objects ["img"] (fun _ => (none : Option Value)) (.obj [("x", .null)]) =
      ([(("x" : String), Value.null)].map Prod.snd).flatMap
        (find_objects ["img"] (fun _ => (none : Option Value))) :=
  find_objects_nonmatch_recurses _ _ _ (Or.inl (by decide))

/-- C7: an object literal with two properties whose keys normalize to the
same string but whose values differ lowers to an Object holding that key
exactly once, bound to the value of the later occurrence. -/
theorem object_duplicate_key_last_wins
    (k1 k2 : PropName) (a b : Expr) (s : String) (va vb : Value)
    (hk1 : parse_prop_name k1 = .ok s) (hk2 : parse_prop_name k2 = .ok s)
    (ha : parse_expr a = .ok (some va)) (hb : parse_expr b = .ok (some vb))
    (_hne : va ≠ vb) :
    parse_expr (.object [.prop (.keyValue k1 a), .prop (.keyValue k2 b)]) =
      .ok (some (.obj [(s, vb)])) := by
  simp [parse_expr, parse_props, ha, hb, hk1, hk2, mapInsert, containsKey]

theorem object_duplicate_key_last_wins_witness :
    parse_expr (.object [.prop (.keyValue (.str "k") (.lit (.num (.finite 1)))),
                         .prop (.keyValue (.ident "k") (.lit (.str "x")))]) =
      .ok (some (.obj [("k", .str "x")])) :=
  object_duplicate_key_last_wins (.str "k") (.ident "k")
    (.lit (.num (.finite 1))) (.lit (.str "x")) "k" (.num 1) (.str "x") rfl rfl
    (by simp [parse_expr, parse_lit, from_f64])
    (by simp [parse_expr, parse_lit])
    (by simp)

/-- C8: unary minus on an operand lowering to a Number negates it; unary
plus on such an operand passes it through; minus or plus on an operand not
lowering to a Number yields absence. Concretely, `-5` lowers to Number `-5`,
`+5` to Number `5`, and unary minus on the string `"x"` to absence. -/
theorem parse_unary_sign_handling :
    (∀ (arg : Expr) (q : ℚ), parse_expr arg = .ok (some (.num q)) →
      parse_expr (.unary .minus arg) = .ok (some (.num (-q))) ∧
      parse_expr (.unary .plus arg) = .ok (some (.num q))) ∧
    (∀ (arg : Expr) (r : Option Value), parse_expr arg = .ok r →
      (∀ q : ℚ, r ≠ some (.num q)) →
      parse_expr (.unary .minus arg) = .ok none ∧
      parse_expr (.unary .plus arg) = .ok none) ∧
    parse_expr (.unary .minus (.lit (.num (.finite 5)))) = .ok (some (.num (-5))) ∧
    parse_expr (.unary .plus (.lit (.num (.finite 5)))) = .ok (some (.num 5)) ∧
    parse_expr (.unary .minus (.lit (.str "x"))) = .ok none := by
  refine ⟨?_, ?_, ?_, ?_, ?_⟩
  · intro arg q h
    constructor <;> simp [parse_expr, parse_unary, h]
  · intro arg r h hne
    match r with
    | none => constructor <;> simp [parse_expr, parse_unary, h]
    | some v =>
      match v with
      | .num q => exact absurd rfl (hne q)
      | .null | .bool _ | .str _ | .arr _ | .obj _ =>
        constructor <;> simp [parse_expr, parse_unary, h]
  · simp [parse_expr, parse_unary, parse_lit, from_f64]
  · simp [parse_expr, parse_unary, parse_lit, from_f64]
  · simp [parse_expr, parse_unary, parse_lit]

theorem parse_unary_sign_handling_witness :
    parse_expr (.unary .minus (.lit (.num (.finite 3)))) = .ok (some (.num (-3))) ∧
    parse_expr (.unary .plus (.lit .null)) = .ok none :=
  ⟨(parse_unary_sign_handling.1 (.lit (.num (.finite 3))) 3
      (by simp [parse_expr, parse_lit, from_f64])).1,
   (parse_unary_sign_handling.2.1 (.lit .null) (some .null)
      (by simp [parse_expr, parse_lit]) (by simp)).2⟩

theorem parse_props_drop (k : PropName) (bad : Expr)
    (hbad : parse_expr bad = .ok none) (ps : List PropOrSpread) :
    ∀ (qs : List PropOrSpread) (m : List (String × Value)),
      parse_props (ps ++ .prop (.keyValue k bad) :: qs) m =
        parse_props (ps ++ qs) m := by
  induction ps with
  | nil => intro qs m; simp [parse_props, hbad]
  | cons p rest ih =>
    intro qs m
    match p with
    | .spread e => simpa [parse_props] using ih qs m
    | .prop .other => simpa [parse_props] using ih qs m
    | .prop (.keyValue k' v) =>
      simp only [List.cons_append, parse_props]
      cases hv : parse_expr v with
      | error e => rfl
      | ok o =>
        cases o with
        | none => exact ih qs m
        | some value =>
          cases hk : parse_prop_name k' with
          | error e => rfl
          | ok key => exact ih qs (mapInsert m key value)

/-- C9: an object-literal property whose value expression does not lower is
dropped whole — the object lowers exactly as if the property were not
there — and in particular `{"a": 1, "b": function(){}, "c": 2}` lowers to
an Object with exactly keys `"a"` and `"c"`, values `1` and `2`. -/
theorem object_prop_bad_value_dropped :
    (∀ (ps qs : List PropOrSpread) (k : PropName) (bad : Expr),
      parse_expr bad = .ok none →
      parse_expr (.object (ps ++ .prop (.keyValue k bad) :: qs)) =
        parse_expr (.object (ps ++ qs))) ∧
    parse_expr (.object [.prop (.keyValue (.str "a") (.lit (.num (.finite 1)))),
                         .prop (.keyValue (.str "b") .other),
                         .prop (.keyValue (.str "c") (.lit (.num (.finite 2))))]) =
      .ok (some (.obj [("a", .num 1), ("c", .num 2)])) := by
  constructor
  · intro ps qs k bad hbad
    simp [parse_expr, parse_props_drop k bad hbad ps qs]
  · simp [parse_expr, parse_props, parse_lit, parse_prop_name, from_f64,
      mapInsert, containsKey]

theorem object_prop_bad_value_dropped_witness :
    parse_expr (.object ([] ++ .prop (.keyValue (.str "b") .other) :: [])) =
      parse_expr (.object ([] ++ [])) :=
  object_prop_bad_value_dropped.1 [] [] (.str "b") .other
    (by simp [parse_expr])

/-- C10 counterexample: an object literal whose single property has a
computed key and a lowerable value (e.g. `{[k]: 1}`) makes lowering panic
instead of returning a value, so lowering an object literal does not always
succeed regardless of contents. -/
theorem object_literal_can_panic :
    parse_expr (.object [.prop (.keyValue .computed (.lit (.num (.finite 1))))]) =
      .error "unknown key type" := by
  simp [parse_expr, parse_props, parse_lit, from_f64, parse_prop_name]

/-- C10 (amended): whenever lowering an object or array literal does not
panic, it returns a value — an Object (resp. Array), empty when every
property or element was dropped as unsupported — and such an initializer
counts as one collected result in the top-level collapse. -/
theorem object_array_literal_total :
    (∀ (props : List PropOrSpread) (r : Option Value),
      parse_expr (.object props) = .ok r → ∃ m, r = some (.obj m)) ∧
    (∀ (elems : List AElem) (r : Option Value),
      parse_expr (.array elems) = .ok r → ∃ vs, r = some (.arr vs)) ∧
    parse_expr (.object [.prop (.keyValue (.str "a") .other)]) =
      .ok (some (.obj [])) ∧
    parse_expr (.array [.hole, .elem false .other]) = .ok (some (.arr [])) ∧
    parse_script ⟨[.decl (.var [some (.object [.prop (.keyValue (.str "x") .other)])]),
                   .decl (.var [some (.lit (.bool true))])]⟩ =
      .ok (some (.arr [.obj [], .bool true])) := by
  refine ⟨?_, ?_, ?_, ?_, ?_⟩
  · intro props r h
    cases hp : parse_props props [] with
    | error e => simp [parse_expr, hp] at h
    | ok m =>
      simp [parse_expr, hp] at h
      exact ⟨m, h.symm⟩
  · intro elems r h
    cases hp : parse_elems elems with
    | error e => simp [parse_expr, hp] at h
    | ok vs =>
      simp [parse_expr, hp] at h
      exact ⟨vs, h.symm⟩
  · simp [parse_expr, parse_props]
  · simp [parse_expr, parse_elems]
  · simp [parse_script, collectStmts, parse_stmt, parse_decl, collectExprs,
      parse_expr, parse_props, parse_lit, collapse]

theorem object_array_literal_total_witness :
    ∃ m, (some (Value.obj []) : Option Value) = some (.obj m) :=
  object_array_literal_total.1 [.prop (.keyValue (.str "a") .other)]
    (some (.obj [])) (by simp [parse_expr, parse_props])

theorem parse_unary_no_panic (op : UnaryOp) (arg : Expr) (r : Option Value)
    (h : parse_expr arg = .ok r) : ∃ o, parse_unary op arg = .ok o := by
  cases op with
  | minus =>
    rcases r with _ | v
    · simp [parse_unary, h]
    · cases v <;> simp [parse_unary, h]
  | plus =>
    rcases r with _ | v
    · simp [parse_unary, h]
    · cases v <;> simp [parse_unary, h]
  | other => simp [parse_unary]

theorem prop_name_no_panic (k : PropName) (hk : goodKey k = true) :
    ∃ key, parse_prop_name k = .ok key := by
  cases k <;> simp [parse_prop_name, goodKey] at hk ⊢

mutual

theorem goodE_no_panic (e : Expr) (h : goodE e = true) :
    ∃ r, parse_expr e = .ok r := by
  match e with
  | .object props =>
    obtain ⟨m, hm⟩ := goodPs_no_panic props [] (by simpa [goodE] using h)
    simp [parse_expr, hm]
  | .array elems =>
    obtain ⟨vs, hv⟩ := goodEls_no_panic elems (by simpa [goodE] using h)
    simp [parse_expr, hv]
  | .lit l =>
    match l with
    | .str s => simp [parse_expr, parse_lit]
    | .num (.finite q) => simp [parse_expr, parse_lit, from_f64]
    | .num .inf => simp [goodE, goodLit] at h
    | .bool b => simp [parse_expr, parse_lit]
    | .null => simp [parse_expr, parse_lit]
    | .other => simp [parse_expr, parse_lit]
  | .unary op arg =>
    obtain ⟨r, hr⟩ := goodE_no_panic arg (by simpa [goodE] using h)
    obtain ⟨o, ho⟩ := parse_unary_no_panic op arg r hr
    exact ⟨o, by simpa [parse_expr] using ho⟩
  | .other => exact ⟨none, by simp [parse_expr]⟩

theorem goodPs_no_panic (ps : List PropOrSpread) (m : List (String × Value))
    (h : goodPs ps = true) : ∃ m', parse_props ps m = .ok m' := by
  match ps with
  | [] => exact ⟨m, by simp [parse_props]⟩
  | .spread e :: rest =>
    obtain ⟨m', hm'⟩ := goodPs_no_panic rest m (by simpa [goodPs] using h)
    exact ⟨m', by simpa [parse_props] using hm'⟩
  | .prop .other :: rest =>
    obtain ⟨m', hm'⟩ := goodPs_no_panic rest m (by simpa [goodPs] using h)
    exact ⟨m', by simpa [parse_props] using hm'⟩
  | .prop (.keyValue k v) :: rest =>
    rw [goodPs] at h
    simp only [Bool.and_eq_true] at h
    obtain ⟨r, hr⟩ := goodE_no_panic v h.2.1
    cases r with
    | none =>
      obtain ⟨m', hm'⟩ := goodPs_no_panic rest m h.2.2
      exact ⟨m', by simp [parse_props, hr, hm']⟩
    | some value =>
      have hln : lowersToNone v = false := by simp [lowersToNone, hr]
      have hk : goodKey k = true := by simpa [hln] using h.1
      obtain ⟨key, hkey⟩ := prop_name_no_panic k hk
      obtain ⟨m', hm'⟩ := goodPs_no_panic rest (mapInsert m key value) h.2.2
      exact ⟨m', by simp [parse_props, hr, hkey, hm']⟩

theorem goodEls_no_panic (es : List AElem) (h : goodEls es = true) :
    ∃ vs, parse_elems es = .ok vs := by
  match es with
  | [] => exact ⟨[], by simp [parse_elems]⟩
  | .hole :: rest =>
    obtain ⟨vs, hv⟩ := goodEls_no_panic rest (by simpa [goodEls] using h)
    exact ⟨vs, by simpa [parse_elems] using hv⟩
  | .elem b e :: rest =>
    rw [goodEls] at h
    simp only [Bool.and_eq_true] at h
    obtain ⟨r, hr⟩ := goodE_no_panic e h.1
    obtain ⟨vs, hv⟩ := goodEls_no_panic rest h.2
    cases r with
    | none => exact ⟨vs, by simp [parse_elems, hr, hv]⟩
    | some v => exact ⟨v :: vs, by simp [parse_elems, hr, hv]⟩

end

theorem collectExprs_no_panic (es : List Expr) (h : es.all goodE = true) :
    ∃ vs, collectExprs es = .ok vs := by
  induction es with
  | nil => exact ⟨[], by simp [collectExprs]⟩
  | cons e rest ih =>
    simp only [List.all_cons, Bool.and_eq_true] at h
    obtain ⟨r, hr⟩ := goodE_no_panic e h.1
    obtain ⟨vs, hv⟩ := ih h.2
    cases r with
    | none => exact ⟨vs, by simp [collectExprs, hr, hv]⟩
    | some v => exact ⟨v :: vs, by simp [collectExprs, hr, hv]⟩

theorem parse_stmt_no_panic (st : Stmt) (h : goodStmt st = true) :
    ∃ r, parse_stmt st = .ok r := by
  match st with
  | .other => exact ⟨none, by simp [parse_stmt]⟩
  | .decl .other => exact ⟨none, by simp [parse_stmt, parse_decl]⟩
  | .decl (.var inits) =>
    obtain ⟨vs, hv⟩ := collectExprs_no_panic (inits.filterMap id)
      (by simpa [goodStmt] using h)
    exact ⟨collapse vs, by simp [parse_stmt, parse_decl, hv]⟩

theorem collectStmts_no_panic (sts : List Stmt) (h : sts.all goodStmt = true) :
    ∃ vs, collectStmts sts = .ok vs := by
  induction sts with
  | nil => exact ⟨[], by simp [collectStmts]⟩
  | cons st rest ih =>
    simp only [List.all_cons, Bool.and_eq_true] at h
    obtain ⟨r, hr⟩ := parse_stmt_no_panic st h.1
    obtain ⟨vs, hv⟩ := ih h.2
    cases r with
    | none => exact ⟨vs, by simp [collectStmts, hr, hv]⟩
    | some v => exact ⟨v :: vs, by simp [collectStmts, hr, hv]⟩

/-- C3 counterexample: lowering does raise hard errors. A script declaring a
non-finite numeric literal (`var x = 1e999`) panics in `parse_lit`'s
`unwrap`, and an object property with a computed key and a lowerable value
panics in `parse_prop_name`, instead of degrading to an absent slot. -/
theorem lowering_panics_counterexample :
    parse_script ⟨[.decl (.var [some (.lit (.num .inf))])]⟩ =
      .error "called Option::unwrap on a None value" ∧
    parse_expr (.object [.prop (.keyValue .computed (.lit .null))]) =
      .error "unknown key type" := by
  constructor
  · simp [parse_script, collectStmts, parse_stmt, parse_decl, collectExprs,
      parse_expr, parse_lit, from_f64]
  · simp [parse_expr, parse_props, parse_prop_name, parse_lit]

/-- C3 (amended): lowering can raise a hard error, but only from two node
shapes — an object property whose key is not a string, identifier, or
number literal and whose value lowers successfully, and a numeric literal
whose value is not a finite number. A script containing neither shape
(`goodScript`: every key/value property either has a supported key form or
a value lowering to absence, and no non-finite numeric literal occurs) is
lowered without any hard error; every other unsupported construct —
including an unsupported key form whose value does not lower — degrades to
the absence of its one slot. -/
theorem good_script_never_panics (s : Script) (h : goodScript s = true) :
    ∃ r, parse_script s = .ok r := by
  obtain ⟨vs, hv⟩ := collectStmts_no_panic s.body (by simpa [goodScript] using h)
  exact ⟨collapse vs, by simp [parse_script, hv]⟩

theorem good_script_never_panics_witness :
    ∃ r, parse_script
      ⟨[.decl (.var [some (.object [.prop (.keyValue (.str "a") .other),
                                    .prop (.keyValue .computed .other),
                                    .spread .other])]),
        .other]⟩ = .ok r :=
  good_script_never_panics _
    (by simp [goodScript, goodStmt, goodE, goodPs, goodKey, lowersToNone,
      parse_expr])

theorem parse_elems_ok_eq (es : List AElem) :
    ∀ vs, parse_elems es = .ok vs → vs = codeArrayLower es := by
  induction es with
  | nil =>
    intro vs h
    simp [parse_elems] at h
    simp [codeArrayLower, ← h]
  | cons el rest ih =>
    intro vs h
    match el with
    | .hole =>
      rw [show parse_elems (.hole :: rest) = parse_elems rest from by
        simp [parse_elems]] at h
      simpa [codeArrayLower, List.filterMap_cons] using ih vs h
    | .elem b e =>
      cases he : parse_expr e with
      | error err => simp [parse_elems, he] at h
      | ok o =>
        cases o with
        | none =>
          have h' : parse_elems rest = .ok vs := by
            simpa [parse_elems, he] using h
          simpa [codeArrayLower, List.filterMap_cons, exprToOpt, he]
            using ih vs h'
        | some v =>
          cases hrest : parse_elems rest with
          | error err => simp [parse_elems, he, hrest] at h
          | ok vs' =>
            have hv : vs = v :: vs' := by
              have := h
              simp [parse_elems, he, hrest] at this
              exact this.symm
            subst hv
            simp [codeArrayLower, List.filterMap_cons, exprToOpt, he,
              ih vs' hrest]

/-- C4 counterexample: a spread element is not dropped — the code never
consults the spread marker. The array literal `[...[1]]` lowers to the
one-element Array `[[1]]` holding the spread's own lowered expression,
while the claim's reading (`claimArrayLower`) drops it. -/
theorem array_spread_kept_counterexample :
    parse_expr (.array [.elem true (.array [.elem false (.lit (.num (.finite 1)))])]) =
      .ok (some (.arr [.arr [.num 1]])) ∧
    claimArrayLower [.elem true (.array [.elem false (.lit (.num (.finite 1)))])] =
      [] ∧
    (Value.arr [.arr [.num 1]]) ≠
      .arr (claimArrayLower
        [.elem true (.array [.elem false (.lit (.num (.finite 1)))])]) := by
  refine ⟨?_, ?_, ?_⟩
  · simp [parse_expr, parse_elems, parse_lit, from_f64]
  · simp [claimArrayLower]
  · simp [claimArrayLower]

/-- C4 (amended): holes are skipped, and the spread marker of a present
element slot is ignored rather than the element dropped: a panic-free array
literal lowers to the Array of the successfully lowered inner expressions
of all present slots — spread or not — in order, with no placeholder for
any dropped slot. -/
theorem array_lower_ignores_spread (elems : List AElem) (r : Option Value)
    (h : parse_expr (.array elems) = .ok r) :
    r = some (.arr (codeArrayLower elems)) := by
  cases hp : parse_elems elems with
  | error e => simp [parse_expr, hp] at h
  | ok vs =>
    have hvs := parse_elems_ok_eq elems vs hp
    simp [parse_expr, hp] at h
    rw [← h, hvs]

theorem array_lower_ignores_spread_witness :
    (some (Value.arr [.bool true]) : Option Value) =
      some (.arr (codeArrayLower [.hole, .elem false (.lit (.bool true))])) :=
  array_lower_ignores_spread [.hole, .elem false (.lit (.bool true))]
    (some (.arr [.bool true])) (by simp [parse_expr, parse_elems, parse_lit])

theorem collectExprs_ok_eq (es : List Expr) :
    ∀ vs, collectExprs es = .ok vs → vs = es.filterMap exprToOpt := by
  induction es with
  | nil =>
    intro vs h
    simp [collectExprs] at h
    simp [← h]
  | cons e rest ih =>
    intro vs h
    cases he : parse_expr e with
    | error err => simp [collectExprs, he] at h
    | ok o =>
      cases o with
      | none =>
        have h' : collectExprs rest = .ok vs := by
          simpa [collectExprs, he] using h
        simpa [List.filterMap_cons, exprToOpt, he] using ih vs h'
      | some v =>
        cases hrest : collectExprs rest with
        | error err => simp [collectExprs, he, hrest] at h
        | ok vs' =>
          have hv : vs = v :: vs' := by
            have := h
            simp [collectExprs, he, hrest] at this
            exact this.symm
          subst hv
          simp [List.filterMap_cons, exprToOpt, he, ih vs' hrest]

theorem parse_stmt_ok_eq (st : Stmt) :
    ∀ o, parse_stmt st = .ok o → o = stmtLowerSpec st := by
  match st with
  | .other =>
    intro o h
    simp [parse_stmt] at h
    simp [stmtLowerSpec, ← h]
  | .decl .other =>
    intro o h
    simp [parse_stmt, parse_decl] at h
    simp [stmtLowerSpec, ← h]
  | .decl (.var inits) =>
    intro o h
    cases hc : collectExprs (inits.filterMap id) with
    | error err => simp [parse_stmt, parse_decl, hc] at h
    | ok vs =>
      have hv := collectExprs_ok_eq (inits.filterMap id) vs hc
      have ho : o = collapse vs := by
        have := h
        simp [parse_stmt, parse_decl, hc] at this
        exact this.symm
      simp [ho, hv, stmtLowerSpec]

theorem collectStmts_ok_eq (sts : List Stmt) :
    ∀ vs, collectStmts sts = .ok vs → vs = sts.filterMap stmtLowerSpec := by
  induction sts with
  | nil =>
    intro vs h
    simp [collectStmts] at h
    simp [← h]
  | cons st rest ih =>
    intro vs h
    cases hst : parse_stmt st with
    | error err => simp [collectStmts, hst] at h
    | ok o =>
      have ho := parse_stmt_ok_eq st o hst
      cases o with
      | none =>
        have h' : collectStmts rest = .ok vs := by
          simpa [collectStmts, hst] using h
        simpa [List.filterMap_cons, ← ho] using ih vs h'
      | some v =>
        cases hrest : collectStmts rest with
        | error err => simp [collectStmts, hst, hrest] at h
        | ok vs' =>
          have hv : vs = v :: vs' := by
            have := h
            simp [collectStmts, hst, hrest] at this
            exact this.symm
          subst hv
          simp [List.filterMap_cons, ← ho, ih vs' hrest]

/-- C1 counterexample: the per-declarator results are not collected into one
flat sequence. For `var a = 1, b = 2; var c = 3;` the code collapses the
first statement's two declarators into an Array first and then collapses
the per-statement results, yielding `[[1, 2], 3]`, while the claim's flat
reading (`claimScriptLower`) yields `[1, 2, 3]`. -/
theorem script_flat_collapse_counterexample :
    parse_script ⟨[.decl (.var [some (.lit (.num (.finite 1))),
                                some (.lit (.num (.finite 2)))]),
                   .decl (.var [some (.lit (.num (.finite 3)))])]⟩ =
      .ok (some (.arr [.arr [.num 1, .num 2], .num 3])) ∧
    claimScriptLower ⟨[.decl (.var [some (.lit (.num (.finite 1))),
                                    some (.lit (.num (.finite 2)))]),
                       .decl (.var [some (.lit (.num (.finite 3)))])]⟩ =
      some (.arr [.num 1, .num 2, .num 3]) ∧
    (some (Value.arr [.arr [.num 1, .num 2], .num 3]) : Option Value) ≠
      some (.arr [.num 1, .num 2, .num 3]) := by
  refine ⟨?_, ?_, ?_⟩
  · simp [parse_script, collectStmts, parse_stmt, parse_decl, collectExprs,
      parse_expr, parse_lit, from_f64, collapse]
  · simp [claimScriptLower, stmtInits, exprToOpt, parse_expr, parse_lit,
      from_f64, collapse]
  · simp

/-- C1 (amended): the collapse is two-level, not flat. Each kept
variable-declaration statement's successfully lowered declarator values are
collapsed first (zero → the statement is skipped; one → that value; more →
an Array), so a statement with several lowered declarators contributes one
pre-grouped Array; the per-statement results are then collapsed a second
time at script level (zero → absent; one → unwrapped; more → an Array), in
source order. -/
theorem parse_script_two_level (s : Script) (r : Option Value)
    (h : parse_script s = .ok r) : r = scriptLowerSpec s := by
  cases hc : collectStmts s.body with
  | error err => simp [parse_script, hc] at h
  | ok vs =>
    have hv := collectStmts_ok_eq s.body vs hc
    have hr : r = collapse vs := by
      have := h
      simp [parse_script, hc] at this
      exact this.symm
    simp [hr, hv, scriptLowerSpec]

theorem parse_script_two_level_witness :
    (some (Value.arr [.arr [.num 1, .num 2], .num 3]) : Option Value) =
      scriptLowerSpec ⟨[.decl (.var [some (.lit (.num (.finite 1))),
                                     some (.lit (.num (.finite 2)))]),
                        .decl (.var [some (.lit (.num (.finite 3)))])]⟩ :=
  parse_script_two_level _ _
    (by simp [parse_script, collectStmts, parse_stmt, parse_decl, collectExprs,
      parse_expr, parse_lit, from_f64, collapse])

/-- C5 counterexample: on a source that parses but yields no lowerable
declaration (here the empty script), `parse_source` reports the nothing-
found condition through the same `Result`'s `Err(ParseError)` channel used
for a tokenizer/grammar failure — only the `kind` string differs — rather
than through an outcome distinct from a failure. -/
theorem nothing_found_is_err_counterexample :
    parse_source (.ok ⟨[]⟩) =
      .ok (.error ⟨"parse_script error", "not find any value in script"⟩) ∧
    parse_source (.error "Unterminated string constant") =
      .ok (.error ⟨"parse error", "Unterminated string constant"⟩) := by
  constructor
  · simp [parse_source, parse_script, collectStmts, collapse]
  · simp [parse_source]

/-- C5 (amended): when the tokenizer/grammar succeeds but lowering finds no
value, `parse_source` returns an error through the same
`Result<Value, ParseError>` channel as a tokenizer/grammar failure, but the
two are distinguishable by the error's `kind` field: nothing-found carries
kind `"parse_script error"` and message `"not find any value in script"`,
while a tokenizer failure carries kind `"parse error"` and the tokenizer's
diagnostic message; the two kind strings differ. -/
theorem nothing_found_same_channel_distinct_kind (script : Script)
    (h : parse_script script = .ok none) :
    parse_source (.ok script) =
      .ok (.error ⟨"parse_script error", "not find any value in script"⟩) ∧
    (∀ msg : String, parse_source (.error msg) =
      .ok (.error ⟨"parse error", msg⟩)) ∧
    ("parse_script error" : String) ≠ "parse error" := by
  refine ⟨?_, ?_, ?_⟩
  · simp [parse_source, h]
  · intro msg
    simp [parse_source]
  · simp

theorem nothing_found_same_channel_distinct_kind_witness :
    parse_source (.ok ⟨[.other]⟩) =
      .ok (.error ⟨"parse_script error", "not find any value in script"⟩) :=
  (nothing_found_same_channel_distinct_kind ⟨[.other]⟩
    (by simp [parse_script, collectStmts, parse_stmt, collapse])).1
